import Mathlib

/-!
Verification of the weewx-brultech Brultech energy-monitor driver.

Shallow embedding of the relevant parts of `bin/user/brultech.py` (the current
driver, Python 3) and `bin/weepwr/gem_driver.py` (the older driver revision,
Python 2).  Byte buffers are `List ℕ` with every element `< 256`; Python floats
are modelled as `ℚ` (all the arithmetic involved is exact decimal arithmetic);
Python dicts that hold packets/records are modelled as insertion-ordered
association lists `List (String × _)`, looked up with `List.lookup`.
-/

namespace Brultech

/-- `unpack` from brultech.py: little-endian accumulation over a byte list
(`for b in a[::-1]: total <<= 8; total += b`). -/
def unpack (a : List ℕ) : ℕ :=
  a.reverse.foldl (fun total b => total * 256 + b) 0

/-- `_mktemperature` from brultech.py: value is the 15-bit little-endian
magnitude divided by 2; the sign lives in the top bit of the second byte
(signed magnitude, not two's complement).
`t = ((b[1] & 0x7f) << 8 | b[0]) / 2.0; if b[1] & 0x80: t = -t`. -/
def mktemperature (b0 b1 : ℕ) : ℚ :=
  let t : ℚ := ((((b1 &&& 0x7f) <<< 8) ||| b0 : ℕ) : ℚ) / 2
  if b1 &&& 0x80 ≠ 0 then -t else t

/-- The two integrity-failure kinds raised by `BTBase`: `_check_ends` raises
"Bad header or footer", `_check_checksum` raises "Bad checksum".  (In
brultech.py both are `weewx.WeeWxIOError`s distinguished by their message;
the older weepwr package names them `EndError` and `CheckSumError`.) -/
inductive FrameError where
  | framing   -- 'Bad header or footer'
  | checksum  -- 'Bad checksum'
  deriving DecidableEq, Repr

/-- `BTBase._check_ends`: `buf[0] == buf[-2] == 0xFE and buf[1] == buf[-3] == 0xFF`. -/
def check_ends (buf : List ℕ) : Bool :=
  buf.getD 0 0 = 0xFE ∧ buf.getD (buf.length - 2) 0 = 0xFE ∧
    buf.getD 1 0 = 0xFF ∧ buf.getD (buf.length - 3) 0 = 0xFF

/-- `BTBase._check_checksum`: `sum(buf[:-1]) & 0xff == buf[-1]`. -/
def check_checksum (buf : List ℕ) : Bool :=
  buf.dropLast.sum % 256 = buf.getD (buf.length - 1) 0

/-- Frame validation as performed by `BTBase.get_packet` on a received binary
buffer: `_check_ends` first, then `_check_checksum` (the packet-type specific
`_check_ID` runs afterwards and is modelled with the packet decoders). -/
def frame_validate (buf : List ℕ) : Except FrameError Unit :=
  if ¬ check_ends buf then .error .framing
  else if ¬ check_checksum buf then .error .checksum
  else .ok ()

end Brultech

namespace Brultech

/-- C6: `_mktemperature` decodes signed-magnitude temperatures: the magnitude
is `((b1 & 0x7F) << 8 | b0) / 2`, the sign is negative exactly when bit 7 of
`b1` is set (for a nonzero magnitude), and in particular
`decode_temperature(0x64, 0x00) = 50` and `decode_temperature(0x64, 0x80) = -50`. -/
theorem mktemperature_signed_magnitude (b0 b1 : ℕ) :
    mktemperature b0 b1 =
      (if b1 &&& 0x80 ≠ 0 then -1 else 1) *
        (((((b1 &&& 0x7f) <<< 8) ||| b0 : ℕ) : ℚ) / 2) ∧
    |mktemperature b0 b1| = ((((b1 &&& 0x7f) <<< 8) ||| b0 : ℕ) : ℚ) / 2 ∧
    ((((b1 &&& 0x7f) <<< 8) ||| b0) ≠ 0 →
      (mktemperature b0 b1 < 0 ↔ b1 &&& 0x80 ≠ 0)) ∧
    mktemperature 0x64 0x00 = 50 ∧ mktemperature 0x64 0x80 = -50 := by
  have hnn : (0 : ℚ) ≤ ((((b1 &&& 0x7f) <<< 8) ||| b0 : ℕ) : ℚ) / 2 := by positivity
  refine ⟨?_, ?_, ?_,
    by unfold mktemperature
       norm_num [show ((0x00 &&& 0x7f) <<< 8 ||| 0x64 : ℕ) = 100 by decide,
         show (0x00 &&& 0x80 : ℕ) = 0 by decide],
    by unfold mktemperature
       norm_num [show ((0x80 &&& 0x7f) <<< 8 ||| 0x64 : ℕ) = 100 by decide,
         show (0x80 &&& 0x80 : ℕ) = 128 by decide]⟩
  · unfold mktemperature
    split <;> ring
  · unfold mktemperature
    split
    · rw [abs_neg, abs_of_nonneg hnn]
    · rw [abs_of_nonneg hnn]
  · intro hM
    have hpos : (0 : ℚ) < ((((b1 &&& 0x7f) <<< 8) ||| b0 : ℕ) : ℚ) / 2 := by
      have : (0 : ℚ) < ((((b1 &&& 0x7f) <<< 8) ||| b0 : ℕ) : ℚ) := by
        exact_mod_cast Nat.pos_of_ne_zero hM
      linarith
    unfold mktemperature
    by_cases hbit : b1 &&& 0x80 ≠ 0
    · simp only [if_pos hbit]
      exact ⟨fun _ => hbit, fun _ => by linarith⟩
    · simp only [if_neg hbit]
      exact ⟨fun hlt => absurd hlt (by linarith), fun h => absurd h hbit⟩

/-- Witness for `mktemperature_signed_magnitude`: at `(0x64, 0x80)` the
magnitude is nonzero, and the sign biconditional holds there. -/
theorem mktemperature_signed_magnitude_witness :
    mktemperature 0x64 0x80 < 0 ↔ (0x80 : ℕ) &&& 0x80 ≠ 0 :=
  (mktemperature_signed_magnitude 0x64 0x80).2.2.1 (by decide)

/-- Replacing the element at index `i` changes a sum of naturals by the
difference between the new and the old element. -/
lemma sum_set_add (d : List ℕ) (i v : ℕ) (h : i < d.length) :
    (d.set i v).sum + d.getD i 0 = d.sum + v := by
  have hd : d.getD i 0 = d[i] := by
    rw [List.getD_eq_get?, List.get?_eq_get h]
    rfl
  rw [List.sum_set, if_pos h, hd]
  have h1 := List.sum_take_add_sum_drop d i
  rw [List.drop_eq_getElem_cons h, List.sum_cons] at h1
  omega

/-- C4 (amended): a buffer with the mirrored 0xFE/0xFF markers in place whose
byte sum (all but the last) reduces mod 256 to the last byte passes
`frame_validate`; altering any single byte that is neither the checksum byte
nor one of the four marker bytes makes `frame_validate` fail with the checksum
error. -/
theorem frame_validate_valid_and_flip (buf : List ℕ)
    (hlen : 5 ≤ buf.length)
    (hbytes : ∀ b ∈ buf, b < 256)
    (he : check_ends buf = true)
    (hc : check_checksum buf = true) :
    frame_validate buf = .ok () ∧
    (∀ i v, i < buf.length - 1 → i ≠ 0 → i ≠ 1 →
      i ≠ buf.length - 2 → i ≠ buf.length - 3 → v < 256 → v ≠ buf.getD i 0 →
      frame_validate (buf.set i v) = .error FrameError.checksum) := by
  constructor
  · unfold frame_validate
    rw [he, hc]
    simp
  · intro i v hi h0 h1 h2 h3 hv hne
    have hil : i < buf.length := by omega
    have gset : ∀ j, i ≠ j → (buf.set i v).getD j 0 = buf.getD j 0 := by
      intro j hij
      rw [List.getD_eq_get?, List.getD_eq_get?, List.get?_set_ne _ _ hij]
    have hends : check_ends (buf.set i v) = true := by
      simp only [check_ends, List.length_set, decide_eq_true_eq] at he ⊢
      rw [gset 0 h0, gset 1 h1, gset (buf.length - 2) h2, gset (buf.length - 3) h3]
      exact he
    have hdl : (buf.set i v).dropLast = buf.dropLast.set i v := by
      rw [List.dropLast_eq_take, List.dropLast_eq_take, List.length_set, List.set_take]
    have hchk : check_checksum (buf.set i v) = false := by
      simp only [check_checksum, List.length_set, decide_eq_false_iff_not]
      rw [hdl, gset (buf.length - 1) (by omega)]
      have hsum := sum_set_add buf.dropLast i v (by rw [List.length_dropLast]; omega)
      have hdi : buf.dropLast.getD i 0 = buf.getD i 0 := by
        rw [List.dropLast_eq_take, List.getD_eq_get?, List.getD_eq_get?, List.get?_take hi]
      simp only [check_checksum, decide_eq_true_eq] at hc
      have hbi : buf.getD i 0 < 256 := by
        have hg : buf.getD i 0 = buf[i] := by
          rw [List.getD_eq_get?, List.get?_eq_get hil]
          rfl
        rw [hg]
        exact hbytes _ (List.getElem_mem hil)
      omega
    unfold frame_validate
    rw [hends, hchk]
    simp

/-- Witness for `frame_validate_valid_and_flip`: the 6-byte buffer
`FE FF 00 FF FE FA` is valid, and altering the non-marker, non-checksum byte
at index 2 produces the checksum error. -/
theorem frame_validate_valid_and_flip_witness :
    frame_validate (([0xFE, 0xFF, 0x00, 0xFF, 0xFE, 0xFA] : List ℕ).set 2 1) =
      .error FrameError.checksum :=
  (frame_validate_valid_and_flip [0xFE, 0xFF, 0x00, 0xFF, 0xFE, 0xFA]
      (by decide) (by decide) (by decide) (by decide)).2
    2 1 (by decide) (by decide) (by decide) (by decide) (by decide) (by decide) (by decide)

/-- C4 (counterexample): altering a marker byte (index 0) of a valid buffer
makes `frame_validate` fail with the framing error, not the checksum error,
because `_check_ends` runs before `_check_checksum`. -/
theorem frame_validate_marker_flip_not_checksum :
    frame_validate [0xFE, 0xFF, 0x00, 0xFF, 0xFE, 0xFA] = .ok () ∧
    frame_validate (([0xFE, 0xFF, 0x00, 0xFF, 0xFE, 0xFA] : List ℕ).set 0 0x00) =
      .error FrameError.framing ∧
    frame_validate (([0xFE, 0xFF, 0x00, 0xFF, 0xFE, 0xFA] : List ℕ).set 0 0x00) ≠
      .error FrameError.checksum := by
  refine ⟨rfl, rfl, fun h => ?_⟩
  rw [show frame_validate (([0xFE, 0xFF, 0x00, 0xFF, 0xFE, 0xFA] : List ℕ).set 0 0x00) =
        Except.error FrameError.framing from rfl] at h
  exact absurd (Except.error.inj h) (by decide)

/-- Outcome of `SocketConnection.read`: `result` is either the length of the
returned buffer or the `RetriesExceeded` payload (requested bytes, bytes
actually received, from the message "Requested %d bytes, only %d received");
`calls` counts how many times `socket.recv` was invoked. -/
structure ReadResult where
  result : Except (ℕ × ℕ) ℕ
  calls : ℕ

/-- The `while remaining > 0` loop of `SocketConnection.read` in brultech.py.
`recvs a` is the number of bytes the `a`-th `socket.recv` call yields (capped
at the requested count, as `recv(remaining)` returns at most `remaining`
bytes); only byte counts are tracked.  `k` is the number of attempts still
allowed (`max_tries - attempt`), so `k = 0` is the `attempt > max_tries`
branch that raises `RetriesExceeded`.  `remaining` is an integer because the
source decrements it by `len(buf)` — the length of the whole accumulated
buffer, not of the last `recv` — which can drive it negative. -/
def read_go (recvs : ℕ → ℕ) (chars : ℕ) : ℕ → ℕ → ℤ → ℕ → ReadResult
  | 0, attempt, remaining, buf =>
      if remaining ≤ 0 then ⟨.ok buf, attempt⟩ else ⟨.error (chars, buf), attempt⟩
  | k + 1, attempt, remaining, buf =>
      if remaining ≤ 0 then ⟨.ok buf, attempt⟩
      else
        let a := attempt + 1
        let r := min (recvs a) remaining.toNat
        let buf1 := buf + r
        -- `if not chars: break` — the `chars=None` single-read path
        if chars = 0 then ⟨.ok buf1, a⟩
        else read_go recvs chars k a (remaining - buf1) buf1

/-- `SocketConnection.read(chars, max_tries)`: `remaining = chars or 4096`,
then the accumulation loop. -/
def socket_read (recvs : ℕ → ℕ) (chars max_tries : ℕ) : ReadResult :=
  read_go recvs chars max_tries 0 (if chars = 0 then 4096 else chars) 0

/-- C2: evaluating `SocketConnection.read` at the failing input.  Requesting
10 bytes with `max_tries = 3` against a socket that yields 4 bytes and then
3 bytes returns a 7-byte buffer with no error after 2 `recv` calls — the
`remaining -= len(buf)` slip (it should be `len(recv)`) drives `remaining`
negative, so `read` neither returns exactly `n` bytes nor raises.
The claim's zero-byte scenario itself does hold: when every `recv` yields 0
bytes, `read(10, max_tries=3)` raises `RetriesExceeded` after exactly 3
`recv` attempts, reporting 0 bytes received. -/
theorem socket_read_partial_buffer_bug :
    (socket_read (fun a => if a = 1 then 4 else 3) 10 3).result = .ok 7 ∧
    (socket_read (fun a => if a = 1 then 4 else 3) 10 3).calls = 2 ∧
    (7 : ℕ) ≠ 10 ∧
    (socket_read (fun _ => 0) 10 3).result = .error (10, 0) ∧
    (socket_read (fun _ => 0) 10 3).calls = 3 := by
  exact ⟨rfl, rfl, by decide, rfl, rfl⟩

/-- Python `str.replace`, scanning left to right and replacing every
non-overlapping occurrence of `old` (nonempty in all uses in brultech.py).
Structural recursion on a fuel that starts at the string length; every step
consumes at least one character, so the fuel never runs out. -/
def replaceFuel (old new : List Char) : ℕ → List Char → List Char
  | _, [] => []
  | 0, s => s
  | fuel + 1, c :: rest =>
      if old.isPrefixOf (c :: rest) then
        new ++ replaceFuel old new fuel (rest.drop (old.length - 1))
      else
        c :: replaceFuel old new fuel rest

/-- `s.replace(old, new)` on strings. -/
def pyReplace (s old new : String) : String :=
  ⟨replaceFuel old.data new.data s.data.length s.data⟩

/-- Split a leading run of decimal digits off a character list. -/
def spanDigits : List Char → List Char × List Char
  | [] => ([], [])
  | c :: rest =>
      if c.isDigit then
        let p := spanDigits rest
        (c :: p.1, p.2)
      else ([], c :: rest)

/-- The compiled pattern `energy2_re = ^ch[0-9]+(_[ap])?_energy2$` from
brultech.py as a decidable matcher: `ch`, one or more digits, an optional
`_a` or `_p`, then the literal `_energy2`.  (Greedy digits agree with the
regex because the continuation starts with a non-digit.) -/
def energy2_match (s : String) : Bool :=
  match s.data with
  | 'c' :: 'h' :: rest =>
      let p := spanDigits rest
      ¬ p.1.isEmpty ∧
        (p.2 = "_energy2".data ∨ p.2 = "_a_energy2".data ∨ p.2 = "_p_energy2".data)
  | _ => false

/-- A WeeWX record as handled by `augment_record`: the dict key `dateTime`
(always present in a record) is lifted to a field; every other key lives in
the insertion-ordered association list `fields`.  A value of `none` models
Python `None`; a key that is absent altogether is a failing lookup. -/
structure BTRecord where
  dateTime : ℚ
  fields : List (String × Option ℚ)

/-- `record.get(key)` / `record[key]` (the call sites of the functions below
guarantee the key is present whenever `record[key]` is used). -/
def BTRecord.get (r : BTRecord) (k : String) : Option (Option ℚ) :=
  r.fields.lookup k

/-- `calc_power` from brultech.py: the raw difference of the accumulated
energies divided by the elapsed wall-clock time — no wraparound handling.
(`weewx.units.getStandardUnitType` / `convertStd` at the call site only tag
and convert units within the record's own unit system; the value itself is
returned unchanged.) -/
def calc_power (power_name : String) (record prev_record : BTRecord) : Option ℚ :=
  let energy2_name := pyReplace power_name "_power" "_energy2"
  match record.get energy2_name, prev_record.get energy2_name with
  | some (some e1), some (some e0) =>
      some ((e1 - e0) / (record.dateTime - prev_record.dateTime))
  | _, _ => none

/-- `calc_delta_energy` from brultech.py: the raw difference of the
accumulated energies — no wraparound handling. -/
def calc_delta_energy (delta_name : String) (record prev_record : BTRecord) : Option ℚ :=
  let energy2_name := pyReplace delta_name "d_energy2" "_energy2"
  match record.get energy2_name, prev_record.get energy2_name with
  | some (some e1), some (some e0) => some (e1 - e0)
  | _, _ => none

/-- One iteration of the key loop in `augment_record`: for an
accumulated-energy key, add the power and delta-energy fields when they are
not already present.  The lookups for `power_name not in record` and the
`calc_*` calls read the record as mutated so far (`r1`). -/
def augment_step (prev_record : BTRecord) (record : BTRecord) (obs_type : String) :
    BTRecord :=
  if energy2_match obs_type then
    let power_name := pyReplace obs_type "_energy2" "_power"
    let delta_name := pyReplace obs_type "_energy2" "d_energy2"
    let r1 :=
      if (record.get power_name).isNone then
        ⟨record.dateTime,
          record.fields ++ [(power_name, calc_power power_name record prev_record)]⟩
      else record
    if (r1.get delta_name).isNone then
      ⟨r1.dateTime,
        r1.fields ++ [(delta_name, calc_delta_energy delta_name r1 prev_record)]⟩
    else r1
  else record

/-- `augment_record(record, prev_record)` from brultech.py: when a previous
record exists, scan a snapshot of the record's keys (`list(record.keys())`)
for accumulated-energy keys and attach the derived power and delta-energy
fields.  Note: the function consults no staleness window — the age of
`prev_record` is never examined. -/
def augment_record (record : BTRecord) (prev_record : Option BTRecord) : BTRecord :=
  match prev_record with
  | none => record
  | some prev => (record.fields.map Prod.fst).foldl (augment_step prev) record

/-- The `stale` configuration option: documented in `DEFAULTS_INI` ("Power is
computed as the difference between energy records. How old a record can be
and still used for this calculation"), parsed by `BTExtends.__init__`
(`self.stale = to_int(bt_dict.get('stale', 1800))`) — and never read again
anywhere in brultech.py. -/
def bt_stale_default : ℕ := 1800

/-- Evaluation of `augment_record` on a record holding one accumulated-energy
channel: the power and delta-energy fields are appended, computed as the raw
differences — the modulus 2^40 is never added. -/
lemma augment_ch1_eval (c0 c1 t0 t1 : ℚ) :
    augment_record ⟨t1, [("ch1_energy2", some c1)]⟩
      (some ⟨t0, [("ch1_energy2", some c0)]⟩) =
      ⟨t1, [("ch1_energy2", some c1),
            ("ch1_power", some ((c1 - c0) / (t1 - t0))),
            ("ch1d_energy2", some (c1 - c0))]⟩ := by
  have h1 : energy2_match "ch1_energy2" = true := by decide
  have h2 : pyReplace "ch1_energy2" "_energy2" "_power" = "ch1_power" := by decide
  have h3 : pyReplace "ch1_energy2" "_energy2" "d_energy2" = "ch1d_energy2" := by decide
  have h4 : pyReplace "ch1_power" "_power" "_energy2" = "ch1_energy2" := by decide
  have h5 : pyReplace "ch1d_energy2" "d_energy2" "_energy2" = "ch1_energy2" := by decide
  have b1 : (("ch1_power" : String) == "ch1_energy2") = false := by decide
  have b2 : (("ch1_energy2" : String) == "ch1_energy2") = true := by decide
  have b3 : (("ch1d_energy2" : String) == "ch1_energy2") = false := by decide
  have b4 : (("ch1d_energy2" : String) == "ch1_power") = false := by decide
  simp only [augment_record, List.map, List.foldl, augment_step, h1, h2, h3, h4, h5,
    BTRecord.get, calc_power, calc_delta_energy, List.lookup, b1, b2, b3, b4,
    if_true, if_false, Option.isNone, List.append_eq, List.cons_append, List.nil_append]

/-- Looking up the two derived fields in the augmented record. -/
lemma augment_ch1_get (c0 c1 t0 t1 : ℚ) :
    (augment_record ⟨t1, [("ch1_energy2", some c1)]⟩
        (some ⟨t0, [("ch1_energy2", some c0)]⟩)).get "ch1_power" =
      some (some ((c1 - c0) / (t1 - t0))) ∧
    (augment_record ⟨t1, [("ch1_energy2", some c1)]⟩
        (some ⟨t0, [("ch1_energy2", some c0)]⟩)).get "ch1d_energy2" =
      some (some (c1 - c0)) := by
  rw [augment_ch1_eval]
  have b1 : (("ch1_power" : String) == "ch1_energy2") = false := by decide
  have b2 : (("ch1_power" : String) == "ch1_power") = true := by decide
  have b3 : (("ch1d_energy2" : String) == "ch1_energy2") = false := by decide
  have b4 : (("ch1d_energy2" : String) == "ch1_power") = false := by decide
  have b5 : (("ch1d_energy2" : String) == "ch1d_energy2") = true := by decide
  constructor <;> simp only [BTRecord.get, List.lookup, b1, b2, b3, b4, b5]

/-- C1 (amended): the derivation engine of brultech.py applies no wraparound
compensation at all — for every pair of counter readings `c0`, `c1` and
timestamps `t0`, `t1`, `augment_record` emits
`delta = c1 - c0` (negative after a counter wraparound) and
`power = (c1 - c0) / (t1 - t0)`; the modulus 2^40 is never added. -/
theorem augment_record_emits_raw_difference (c0 c1 t0 t1 : ℚ) :
    (augment_record ⟨t1, [("ch1_energy2", some c1)]⟩
        (some ⟨t0, [("ch1_energy2", some c0)]⟩)).get "ch1_power" =
      some (some ((c1 - c0) / (t1 - t0))) ∧
    (augment_record ⟨t1, [("ch1_energy2", some c1)]⟩
        (some ⟨t0, [("ch1_energy2", some c0)]⟩)).get "ch1d_energy2" =
      some (some (c1 - c0)) :=
  augment_ch1_get c0 c1 t0 t1

/-- C1 (counterexample): with previous counter `2^40 - 10`, current counter
`5` and elapsed `10 s`, the emitted delta-energy is `5 - (2^40 - 10)`
(a large negative number, not `15`) and the emitted power is that value over
10 (not `1.5`): the claimed wraparound compensation does not happen. -/
theorem augment_record_wraparound_counterexample :
    (augment_record ⟨10, [("ch1_energy2", some 5)]⟩
        (some ⟨0, [("ch1_energy2", some (2 ^ 40 - 10))]⟩)).get "ch1d_energy2" =
      some (some ((5 : ℚ) - (2 ^ 40 - 10))) ∧
    ((5 : ℚ) - (2 ^ 40 - 10)) ≠ 15 ∧
    (augment_record ⟨10, [("ch1_energy2", some 5)]⟩
        (some ⟨0, [("ch1_energy2", some (2 ^ 40 - 10))]⟩)).get "ch1_power" =
      some (some (((5 : ℚ) - (2 ^ 40 - 10)) / (10 - 0))) ∧
    (((5 : ℚ) - (2 ^ 40 - 10)) / (10 - 0)) ≠ 1.5 := by
  refine ⟨(augment_ch1_get _ _ _ _).2, by norm_num, (augment_ch1_get _ _ _ _).1, by norm_num⟩

/-- C3: the staleness window is never enforced by `augment_record`.  A
previous record 10000 s old — far beyond the configured default window of
1800 s (`bt_stale_default`, parsed from the `stale` option and then never
used) — still yields power and delta-energy fields on the new record. -/
theorem augment_record_ignores_staleness :
    ((10000 : ℚ) - 0 > (bt_stale_default : ℚ)) ∧
    (augment_record ⟨10000, [("ch1_energy2", some 100)]⟩
        (some ⟨0, [("ch1_energy2", some 0)]⟩)).get "ch1_power" =
      some (some (((100 : ℚ) - 0) / (10000 - 0))) ∧
    (augment_record ⟨10000, [("ch1_energy2", some 100)]⟩
        (some ⟨0, [("ch1_energy2", some 0)]⟩)).get "ch1d_energy2" =
      some (some ((100 : ℚ) - 0)) := by
  refine ⟨by norm_num [bt_stale_default], (augment_ch1_get _ _ _ _).1,
    (augment_ch1_get _ _ _ _).2⟩

/-- A packet-dict value: a number (Python int/float, both exact here) or a
string (the formatted serial number). -/
inductive PVal where
  | num (q : ℚ)
  | str (s : String)
  deriving DecidableEq, Repr

/-- `'ch%d' % n ++ suffix`-style key formatting used by the decoders. -/
def chTag (n : ℕ) (suffix : String) : String :=
  "ch" ++ Nat.repr n ++ suffix

/-- `'%0wd' % n`: decimal representation left-padded with zeros to width `w`. -/
def zeroPad (w n : ℕ) : String :=
  ⟨List.replicate (w - (Nat.repr n).data.length) '0' ++ (Nat.repr n).data⟩

/-- `struct.unpack('>H', buf[:2])[0]`: big-endian unsigned short (the callers
pass exactly two bytes; out-of-range reads cannot happen because the buffer
length is checked by `read(packet_length)`). -/
def extract_short (buf : List ℕ) : ℕ :=
  buf.getD 0 0 * 256 + buf.getD 1 0

/-- `extract_seq(buf, N, nbyte, tag)` from brultech.py: unpack `N`
consecutive little-endian fields of `nbyte` bytes, keyed `tag % (i+1)`. -/
def extract_seq (buf : List ℕ) (N nbyte : ℕ) (tag : ℕ → String) : List (String × ℕ) :=
  (List.range N).map (fun i => (tag (i + 1), unpack ((buf.drop (i * nbyte)).take nbyte)))

/-- Body of the temperature loop of `GEMBin48Net._extract_packet_from`, for
an arbitrary list of loop indices: decode the two-byte signed-magnitude
temperature at offset `600 + 2*i` and keep it only when its magnitude is at
most 255 (`if abs(t) <= 255`). -/
def temperature_fold (buf : List ℕ) (l : List ℕ) : List (String × PVal) :=
  l.foldr (fun i acc =>
    (if |mktemperature (buf.getD (600 + 2 * i) 0) (buf.getD (600 + 2 * i + 1) 0)| ≤ 255 then
        [(chTag (i + 1) "_temperature",
          PVal.num (mktemperature (buf.getD (600 + 2 * i) 0) (buf.getD (600 + 2 * i + 1) 0)))]
      else []) ++ acc) []

/-- The temperature loop of `GEMBin48Net._extract_packet_from`:
`for i in range(8)`. -/
def temperature_fields (buf : List ℕ) : List (String × PVal) :=
  temperature_fold buf (List.range 8)

/-- `GEMBin48Net._extract_packet_from` (the 619-byte BIN48-NET layout, format
number 5): dict insertion order is preserved in the association list.  `now`
is `time.time()`; `mc` is the configured `max_channels`; 17 is the
`weewx.METRICWX` unit-system tag. -/
def gembin48net_extract (now : ℚ) (mc : ℕ) (buf : List ℕ) : List (String × PVal) :=
  [("dateTime", PVal.num now),
   ("usUnits", PVal.num 17),
   ("ch1_volt", PVal.num ((extract_short (buf.drop 3) : ℚ) / 10)),
   ("ser_no", PVal.num (extract_short (buf.drop 485))),
   ("unit_id", PVal.num (buf.getD 488 0)),
   ("secs", PVal.num (unpack ((buf.drop 585).take 3))),
   ("serial", PVal.str (zeroPad 3 (buf.getD 488 0) ++ zeroPad 5 (extract_short (buf.drop 485))))]
  ++ (extract_seq (buf.drop 5) mc 5 (fun n => chTag n "_a_energy2")).map
      (fun kv => (kv.1, PVal.num kv.2))
  ++ (extract_seq (buf.drop 245) mc 5 (fun n => chTag n "_p_energy2")).map
      (fun kv => (kv.1, PVal.num kv.2))
  ++ (extract_seq (buf.drop 489) mc 2 (fun n => chTag n "_amp")).map
      (fun kv => (kv.1, PVal.num ((kv.2 : ℚ) / 50)))
  ++ (extract_seq (buf.drop 588) 4 3 (fun n => chTag n "_count")).map
      (fun kv => (kv.1, PVal.num kv.2))
  ++ temperature_fields buf

/-- Cumulative days before month `m` (1-based) in a non-leap year. -/
def daysBeforeMonth : ℕ → ℕ
  | 1 => 0 | 2 => 31 | 3 => 59 | 4 => 90 | 5 => 120 | 6 => 151
  | 7 => 181 | 8 => 212 | 9 => 243 | 10 => 273 | 11 => 304 | 12 => 334
  | _ => 0

/-- Proleptic-Gregorian leap year. -/
def isLeap (y : ℕ) : Bool :=
  y % 4 = 0 ∧ (y % 100 ≠ 0 ∨ y % 400 = 0)

/-- `datetime.date(y, m, 1).toordinal()`: days since 0001-01-01 = ordinal 1. -/
def dateOrdinalFirst (y m : ℕ) : ℕ :=
  (y - 1) * 365 + (y - 1) / 4 - (y - 1) / 100 + (y - 1) / 400
    + daysBeforeMonth m + (if 3 ≤ m ∧ isLeap y then 1 else 0) + 1

/-- `calendar.timegm((y, mo, d, h, mi, s, ...))`: seconds since the Unix
epoch.  For the device fields `y = Y + 2000 ≥ 2000`, so no intermediate value
is negative. -/
def timegm (y mo d h mi s : ℕ) : ℕ :=
  let days := dateOrdinalFirst y mo - dateOrdinalFirst 1970 1 + d - 1
  ((days * 24 + h) * 60 + mi) * 60 + s

/-- Validity of the embedded month: `datetime.date(year, month, 1)` inside
`calendar.timegm` raises `ValueError` exactly when the month is outside
1..12 (the year `Y + 2000` is always in `datetime`'s range, and `timegm`
does not range-check the day/hour/minute/second fields). -/
def timegm_month_ok (mo : ℕ) : Bool :=
  1 ≤ mo ∧ mo ≤ 12

/-- `GEMBin48NetTime._extract_packet_from` (the 625-byte BIN48-NET-TIME
layout, format number 4): the base packet plus the embedded time at offsets
616..621; an invalid calendar combination raises `ValueError`, which is
caught, and zero — "force a clock synchronization" — is stored instead. -/
def gembin48nettime_extract (now : ℚ) (mc : ℕ) (buf : List ℕ) : List (String × PVal) :=
  let Y := buf.getD 616 0
  let M := buf.getD 617 0
  let D := buf.getD 618 0
  let h := buf.getD 619 0
  let m := buf.getD 620 0
  let s := buf.getD 621 0
  gembin48net_extract now mc buf ++
    [("time_created",
      PVal.num (if timegm_month_ok M then (timegm (Y + 2000) M D h m s : ℚ) else 0))]

/-- The only Python exception kind relevant to the decoders. -/
inductive PyError where
  | valueError
  deriving DecidableEq, Repr

/-- `GEM48PBinary.extract_packet_from` from the older gem_driver.py (Python
2): same wire layout as `gembin48net_extract`, but `dateTime` is
`int(time.time() + 0.5)`, the channel count is fixed at 32, the raw pulse
and temperature words are stored unconditionally under `p%d` / `t%d` keys,
and the energy keys are `ch%d_aws` / `ch%d_pws`.  (gem_driver.py's `unpack`,
`extract_short` and `extract_seq` agree with the brultech.py versions
embedded above.) -/
def gem48p_extract (now : ℤ) (buf : List ℕ) : List (String × PVal) :=
  [("packet_id", PVal.num 5),
   ("dateTime", PVal.num now),
   ("volts", PVal.num ((extract_short (buf.drop 3) : ℚ) / 10))]
  ++ (extract_seq (buf.drop 5) 32 5 (fun n => chTag n "_aws")).map
      (fun kv => (kv.1, PVal.num kv.2))
  ++ (extract_seq (buf.drop 245) 32 5 (fun n => chTag n "_pws")).map
      (fun kv => (kv.1, PVal.num kv.2))
  ++ [("ser_no", PVal.num (extract_short (buf.drop 485))),
      ("unit_id", PVal.num (buf.getD 488 0)),
      ("serial", PVal.str (zeroPad 3 (buf.getD 488 0) ++ zeroPad 5 (extract_short (buf.drop 485)))),
      ("secs", PVal.num (unpack ((buf.drop 585).take 3)))]
  ++ (extract_seq (buf.drop 588) 4 3 (fun n => "p" ++ Nat.repr n)).map
      (fun kv => (kv.1, PVal.num kv.2))
  ++ (extract_seq (buf.drop 600) 8 2 (fun n => "t" ++ Nat.repr n)).map
      (fun kv => (kv.1, PVal.num kv.2))

/-- `GEM48PDBinary.extract_packet_from` from the older gem_driver.py: the
embedded time bytes at 616..621 are decoded with `calendar.timegm` WITHOUT a
try/except, so an invalid calendar combination raises `ValueError` and
aborts the decode. -/
def gem48pd_extract (now : ℤ) (buf : List ℕ) : Except PyError (List (String × PVal)) :=
  let Y := buf.getD 616 0
  let M := buf.getD 617 0
  let D := buf.getD 618 0
  let h := buf.getD 619 0
  let m := buf.getD 620 0
  let s := buf.getD 621 0
  if timegm_month_ok M then
    .ok (gem48p_extract now buf ++
      [("time_created", PVal.num (timegm (Y + 2000) M D h m s))])
  else
    .error .valueError

/-- A lookup fails when the key differs from every key of the list. -/
lemma lookup_none_of_keys_ne {β : Type} (l : List (String × β)) (k : String)
    (h : ∀ p ∈ l, (k == p.1) = false) : l.lookup k = none := by
  induction l with
  | nil => rfl
  | cons p rest ih =>
      rw [show p = (p.1, p.2) from rfl, List.lookup_cons,
        h p (List.mem_cons_self p rest)]
      exact ih fun q hq => h q (List.mem_cons_of_mem p hq)

/-- Strings whose last characters differ are not `==`. -/
lemma string_beq_false_of_getLast_ne (k k' : String)
    (h : k.data.getLast? ≠ k'.data.getLast?) : (k == k') = false := by
  rw [beq_eq_false_iff_ne]
  intro he
  exact h (by rw [he])

/-- Strings whose first characters differ are not `==`. -/
lemma string_beq_false_of_head_ne (k k' : String)
    (h : k.data.head? ≠ k'.data.head?) : (k == k') = false := by
  rw [beq_eq_false_iff_ne]
  intro he
  exact h (by rw [he])

/-- A `chTag` key starts with `'c'`. -/
lemma chTag_head (n : ℕ) (s : String) : (chTag n s).data.head? = some 'c' := by
  unfold chTag
  rw [String.data_append, String.data_append]
  rfl

/-- A `chTag` key ends with the last character of its suffix. -/
lemma chTag_getLast (n : ℕ) (s : String) (c : Char) (h : s.data.getLast? = some c) :
    (chTag n s).data.getLast? = some c := by
  unfold chTag
  rw [String.data_append, List.getLast?_append, h]
  rfl

/-- Keys produced by `extract_seq` all have the shape `tag (m+1)`. -/
lemma mem_extract_seq (buf : List ℕ) (N nbyte : ℕ) (tag : ℕ → String)
    (p : String × ℕ) (h : p ∈ extract_seq buf N nbyte tag) :
    ∃ m, p.1 = tag (m + 1) := by
  simp only [extract_seq, List.mem_map, List.mem_range] at h
  obtain ⟨m, _, hm⟩ := h
  exact ⟨m, by rw [← hm]⟩

/-- Keys of `temperature_fields` all have the shape `ch%d_temperature`. -/
lemma mem_temperature_fields (buf : List ℕ) (p : String × PVal)
    (h : p ∈ temperature_fields buf) :
    ∃ i, p.1 = chTag (i + 1) "_temperature" := by
  unfold temperature_fields temperature_fold at h
  generalize List.range 8 = l at h
  induction l with
  | nil => cases h
  | cons j rest ih =>
      rw [List.foldr_cons] at h
      rcases List.mem_append.mp h with h1 | h2
      · refine ⟨j, ?_⟩
        split at h1
        · rw [List.mem_singleton.mp h1]
        · cases h1
      · exact ih h2

/-- Looking up a key over a conditionally present entry with a different key
skips the entry. -/
lemma lookup_cond_skip (c : Prop) [Decidable c] (k k' : String) (v : PVal)
    (l : List (String × PVal)) (h : (k == k') = false) :
    ((if c then [(k', v)] else []) ++ l).lookup k = l.lookup k := by
  split
  · rw [List.singleton_append, List.lookup_cons, h]
  · rw [List.nil_append]

/-- Looking up a key over a conditionally present entry with that very key
finds it exactly when the condition holds. -/
lemma lookup_cond_found (c : Prop) [Decidable c] (k : String) (v : PVal)
    (l : List (String × PVal)) (h : l.lookup k = none) :
    ((if c then [(k, v)] else []) ++ l).lookup k = if c then some v else none := by
  split
  · rw [List.singleton_append, List.lookup_cons, beq_self_eq_true]
  · rw [List.nil_append, h]

/-- Distinct channel indices below 8 yield distinct temperature keys. -/
lemma chTag_temp_ne (i j : ℕ) (hi : i < 8) (hj : j < 8) :
    i ≠ j → (chTag (i + 1) "_temperature" == chTag (j + 1) "_temperature") = false := by
  interval_cases i <;> interval_cases j <;> decide

/-- The temperature loop produces no entry for a channel index that is not
iterated over. -/
lemma lookup_temperature_fold_none (buf : List ℕ) (i : ℕ) (hi : i < 8) :
    ∀ l : List ℕ, (∀ j ∈ l, j < 8) → i ∉ l →
    (temperature_fold buf l).lookup (chTag (i + 1) "_temperature") = none := by
  intro l
  induction l with
  | nil => intro _ _; rfl
  | cons j rest ih =>
      intro hall hnot
      have hij : i ≠ j := fun he => hnot (he ▸ List.mem_cons_self j rest)
      rw [temperature_fold, List.foldr_cons]
      rw [lookup_cond_skip _ _ _ _ _ (chTag_temp_ne i j hi (hall j (List.mem_cons_self j rest)) hij)]
      exact ih (fun q hq => hall q (List.mem_cons_of_mem _ hq))
        (fun hm => hnot (List.mem_cons_of_mem _ hm))

/-- Looking up channel `i`'s temperature key in the temperature loop's output:
present with the decoded value exactly when the magnitude is in range. -/
lemma lookup_temperature_fold (buf : List ℕ) (i : ℕ) (hi : i < 8) :
    ∀ l : List ℕ, (∀ j ∈ l, j < 8) → l.Nodup → i ∈ l →
    (temperature_fold buf l).lookup (chTag (i + 1) "_temperature") =
      (if |mktemperature (buf.getD (600 + 2 * i) 0) (buf.getD (600 + 2 * i + 1) 0)| ≤ 255 then
        some (PVal.num (mktemperature (buf.getD (600 + 2 * i) 0) (buf.getD (600 + 2 * i + 1) 0)))
      else none) := by
  intro l
  induction l with
  | nil => intro _ _ hmem; cases hmem
  | cons j rest ih =>
      intro hall hnd hmem
      rw [temperature_fold, List.foldr_cons]
      by_cases hij : i = j
      · subst hij
        have hrest : i ∉ rest := (List.nodup_cons.mp hnd).1
        exact lookup_cond_found _ _ _ _
          (lookup_temperature_fold_none buf i hi rest
            (fun q hq => hall q (List.mem_cons_of_mem _ hq)) hrest)
      · rw [lookup_cond_skip _ _ _ _ _
          (chTag_temp_ne i j hi (hall j (List.mem_cons_self j rest)) hij)]
        exact ih (fun q hq => hall q (List.mem_cons_of_mem _ hq))
          (List.nodup_cons.mp hnd).2
          ((List.mem_cons.mp hmem).resolve_left hij)

/-- C7: for every binary BIN48-NET packet and temperature channel `i < 8`,
the decoded Sample carries the channel's `ch%d_temperature` field exactly
when the decoded signed-magnitude temperature has magnitude at most 255, and
the field then holds that decoded value; a temperature of larger magnitude is
dropped (no field for that channel). -/
theorem gembin48net_temperature_drop (now : ℚ) (mc : ℕ) (buf : List ℕ) (i : ℕ)
    (hi : i < 8) :
    (gembin48net_extract now mc buf).lookup (chTag (i + 1) "_temperature") =
      (if |mktemperature (buf.getD (600 + 2 * i) 0) (buf.getD (600 + 2 * i + 1) 0)| ≤ 255 then
        some (PVal.num (mktemperature (buf.getD (600 + 2 * i) 0) (buf.getD (600 + 2 * i + 1) 0)))
      else none) := by
  have hkl : (chTag (i + 1) "_temperature").data.getLast? = some 'e' :=
    chTag_getLast _ _ _ (by rfl)
  have hfixed :
      ([("dateTime", PVal.num now),
        ("usUnits", PVal.num 17),
        ("ch1_volt", PVal.num ((extract_short (buf.drop 3) : ℚ) / 10)),
        ("ser_no", PVal.num (extract_short (buf.drop 485))),
        ("unit_id", PVal.num (buf.getD 488 0)),
        ("secs", PVal.num (unpack ((buf.drop 585).take 3))),
        ("serial", PVal.str (zeroPad 3 (buf.getD 488 0) ++
          zeroPad 5 (extract_short (buf.drop 485))))]).lookup
        (chTag (i + 1) "_temperature") = none := by
    apply lookup_none_of_keys_ne
    intro p hp
    simp only [List.mem_cons, List.not_mem_nil, or_false] at hp
    rcases hp with h|h|h|h|h|h|h <;> subst h
    · show (chTag (i + 1) "_temperature" == "dateTime") = false
      exact string_beq_false_of_head_ne _ _ (by rw [chTag_head]; decide)
    · show (chTag (i + 1) "_temperature" == "usUnits") = false
      exact string_beq_false_of_head_ne _ _ (by rw [chTag_head]; decide)
    · show (chTag (i + 1) "_temperature" == "ch1_volt") = false
      exact string_beq_false_of_getLast_ne _ _ (by rw [hkl]; decide)
    · show (chTag (i + 1) "_temperature" == "ser_no") = false
      exact string_beq_false_of_head_ne _ _ (by rw [chTag_head]; decide)
    · show (chTag (i + 1) "_temperature" == "unit_id") = false
      exact string_beq_false_of_head_ne _ _ (by rw [chTag_head]; decide)
    · show (chTag (i + 1) "_temperature" == "secs") = false
      exact string_beq_false_of_head_ne _ _ (by rw [chTag_head]; decide)
    · show (chTag (i + 1) "_temperature" == "serial") = false
      exact string_beq_false_of_head_ne _ _ (by rw [chTag_head]; decide)
  have hseq : ∀ (b2 : List ℕ) (N nb : ℕ) (sfx : String)
      (g : String × ℕ → String × PVal) (c : Char),
      (∀ kv, (g kv).1 = kv.1) → sfx.data.getLast? = some c → c ≠ 'e' →
      ((extract_seq b2 N nb (fun n => chTag n sfx)).map g).lookup
        (chTag (i + 1) "_temperature") = none := by
    intro b2 N nb sfx g c hg hc hce
    apply lookup_none_of_keys_ne
    intro p hp
    rw [List.mem_map] at hp
    obtain ⟨kv, hkv, rfl⟩ := hp
    obtain ⟨m, hm⟩ := mem_extract_seq b2 N nb _ kv hkv
    rw [hg kv, hm]
    refine string_beq_false_of_getLast_ne _ _ ?_
    rw [hkl, chTag_getLast _ _ _ hc]
    exact fun h => hce (Option.some.inj h).symm
  have htemps := lookup_temperature_fold buf i hi (List.range 8)
    (fun j hj => List.mem_range.mp hj) (List.nodup_range 8) (List.mem_range.mpr hi)
  unfold gembin48net_extract
  rw [List.lookup_append, List.lookup_append, List.lookup_append, List.lookup_append,
    List.lookup_append, hfixed,
    hseq (buf.drop 5) mc 5 "_a_energy2" (fun kv => (kv.1, PVal.num kv.2)) '2'
      (fun kv => rfl) (by rfl) (by decide),
    hseq (buf.drop 245) mc 5 "_p_energy2" (fun kv => (kv.1, PVal.num kv.2)) '2'
      (fun kv => rfl) (by rfl) (by decide),
    hseq (buf.drop 489) mc 2 "_amp" (fun kv => (kv.1, PVal.num ((kv.2 : ℚ) / 50))) 'p'
      (fun kv => rfl) (by rfl) (by decide),
    hseq (buf.drop 588) 4 3 "_count" (fun kv => (kv.1, PVal.num kv.2)) 't'
      (fun kv => rfl) (by rfl) (by decide)]
  simp only [Option.none_or]
  rw [show temperature_fields buf = temperature_fold buf (List.range 8) from rfl]
  exact htemps

/-- Witness for `gembin48net_temperature_drop`: on the all-zero (empty)
buffer the channel-1 temperature decodes to `0`, which is in range, so the
`ch1_temperature` field is present and holds `0`. -/
theorem gembin48net_temperature_drop_witness :
    (gembin48net_extract 0 0 []).lookup (chTag 1 "_temperature") =
      some (PVal.num 0) := by
  have h := gembin48net_temperature_drop 0 0 [] 0 (by decide)
  have hz : mktemperature (([] : List ℕ).getD (600 + 2 * 0) 0)
      (([] : List ℕ).getD (600 + 2 * 0 + 1) 0) = 0 := by
    norm_num [mktemperature]
  rw [hz] at h
  simpa using h

/-- C5 (amended, current decoder): when the embedded month byte is invalid,
`GEMBin48NetTime._extract_packet_from` does not abort: it returns the full
BIN48-NET Sample with the sentinel `time_created = 0` appended ("force a
clock synchronization"), and every base field keeps its value. -/
theorem gembin48nettime_invalid_time_sentinel (now : ℚ) (mc : ℕ) (buf : List ℕ)
    (hM : timegm_month_ok (buf.getD 617 0) = false) :
    gembin48nettime_extract now mc buf =
      gembin48net_extract now mc buf ++ [("time_created", PVal.num 0)] ∧
    (gembin48nettime_extract now mc buf).lookup "time_created" = some (PVal.num 0) ∧
    (∀ k v, (gembin48net_extract now mc buf).lookup k = some v →
      (gembin48nettime_extract now mc buf).lookup k = some v) := by
  have heq : gembin48nettime_extract now mc buf =
      gembin48net_extract now mc buf ++ [("time_created", PVal.num 0)] := by
    simp only [gembin48nettime_extract, hM, Bool.false_eq_true, if_false]
  have hbase : (gembin48net_extract now mc buf).lookup "time_created" = none := by
    apply lookup_none_of_keys_ne
    intro p hp
    unfold gembin48net_extract at hp
    simp only [List.mem_append] at hp
    have hch : ∀ n s, (("time_created" : String) == chTag n s) = false := fun n s =>
      string_beq_false_of_head_ne _ _ (by rw [chTag_head]; decide)
    rcases hp with ((((hp | hp) | hp) | hp) | hp) | hp
    · simp only [List.mem_cons, List.not_mem_nil, or_false] at hp
      rcases hp with h|h|h|h|h|h|h <;> subst h
      · show (("time_created" : String) == "dateTime") = false
        decide
      · show (("time_created" : String) == "usUnits") = false
        decide
      · show (("time_created" : String) == "ch1_volt") = false
        decide
      · show (("time_created" : String) == "ser_no") = false
        decide
      · show (("time_created" : String) == "unit_id") = false
        decide
      · show (("time_created" : String) == "secs") = false
        decide
      · show (("time_created" : String) == "serial") = false
        decide
    · rw [List.mem_map] at hp
      obtain ⟨kv, hkv, rfl⟩ := hp
      obtain ⟨m, hm⟩ := mem_extract_seq _ _ _ _ kv hkv
      rw [show ((fun kv => (kv.1, PVal.num kv.2)) kv).1 = kv.1 from rfl, hm]
      exact hch _ _
    · rw [List.mem_map] at hp
      obtain ⟨kv, hkv, rfl⟩ := hp
      obtain ⟨m, hm⟩ := mem_extract_seq _ _ _ _ kv hkv
      rw [show ((fun kv => (kv.1, PVal.num kv.2)) kv).1 = kv.1 from rfl, hm]
      exact hch _ _
    · rw [List.mem_map] at hp
      obtain ⟨kv, hkv, rfl⟩ := hp
      obtain ⟨m, hm⟩ := mem_extract_seq _ _ _ _ kv hkv
      rw [show ((fun kv => (kv.1, PVal.num ((kv.2 : ℚ) / 50))) kv).1 = kv.1 from rfl, hm]
      exact hch _ _
    · rw [List.mem_map] at hp
      obtain ⟨kv, hkv, rfl⟩ := hp
      obtain ⟨m, hm⟩ := mem_extract_seq _ _ _ _ kv hkv
      rw [show ((fun kv => (kv.1, PVal.num kv.2)) kv).1 = kv.1 from rfl, hm]
      exact hch _ _
    · obtain ⟨m, hm⟩ := mem_temperature_fields buf p hp
      rw [hm]
      exact hch _ _
  refine ⟨heq, ?_, ?_⟩
  · rw [heq, List.lookup_append, hbase]
    rfl
  · intro k v hk
    rw [heq, List.lookup_append, hk]
    rfl

set_option maxRecDepth 8000 in
/-- Witness for `gembin48nettime_invalid_time_sentinel`: a 625-byte all-zero
buffer has month byte 0 (the "before first clock sync" state); the decoded
Sample carries `time_created = 0`. -/
theorem gembin48nettime_invalid_time_sentinel_witness :
    (gembin48nettime_extract 0 32 (List.replicate 625 0)).lookup "time_created" =
      some (PVal.num 0) :=
  (gembin48nettime_invalid_time_sentinel 0 32 (List.replicate 625 0) (by decide)).2.1

set_option maxRecDepth 8000 in
/-- C5 (counterexample, older decoder): `GEM48PDBinary.extract_packet_from`
in gem_driver.py does not catch the `ValueError`, so on the same all-zero
625-byte buffer decoding aborts with the error instead of returning any
Sample. -/
theorem gem48pd_extract_aborts_on_invalid_time :
    gem48pd_extract 0 (List.replicate 625 0) = .error PyError.valueError := rfl

/-- Python `bytes.find(c)`: index of the first occurrence, or `-1`. -/
def pyFind (c : Char) (s : String) : ℤ :=
  match s.data.findIdx? (· = c) with
  | some i => (i : ℤ)
  | none => -1

/-- Python slice `s[:j]` for an integer `j`: a negative index counts from the
end of the string (so `s[:-1]` drops the last character). -/
def pySliceTo (s : String) (j : ℤ) : String :=
  ⟨s.data.take (if j < 0 then ((s.data.length : ℤ) + j).toNat else j.toNat)⟩

/-- Python slice `s[j:]` for a nonnegative `j` (the only use below is
`obs_type[underscore + 1:]` with `underscore ≥ -1`). -/
def pySliceFrom (s : String) (j : ℤ) : String :=
  ⟨s.data.drop j.toNat⟩

/-- `int(text)`: an optional sign followed by one or more decimal digits
(`ValueError`, i.e. `none`, otherwise).  Python also strips surrounding
whitespace and allows inner underscores; the keys exercised here have
neither. -/
def pyParseInt (s : String) : Option ℤ :=
  match s.data with
  | '-' :: rest => (pyParseDigits rest).map (fun n => -n)
  | '+' :: rest => pyParseDigits rest
  | l => pyParseDigits l
where
  pyParseDigits (l : List Char) : Option ℤ :=
    if l = [] ∨ ¬ l.all Char.isDigit then none
    else some (l.foldl (fun a c => a * 10 + ((c.toNat - 48 : ℕ) : ℤ)) 0)

/-- `int(q)` on a number: truncation toward zero. -/
def pyIntTrunc (q : ℚ) : ℤ :=
  if 0 ≤ q then ⌊q⌋ else ⌈q⌉

/-- `'ch%d' % channel ++ suffix` for a possibly negative channel number. -/
def intTag (channel : ℤ) (suffix : String) : String :=
  "ch" ++ toString channel ++ suffix

/-- One `key=value` pair of the `GEMAscii._extract_packet_from` loop.  The
pair list stands for the output of `parse_qsl(byte_buf)`; each value is
modelled as the rational its text denotes (`float(val)` / `int(val)` on the
value text is orthogonal to the key handling).  `.error` is the uncaught
`ValueError` raised by `int(obs_type[underscore+1:])` when the channel
suffix is not an integer — note that when the key has no `_` at all,
`find` returns -1, so the whole key must parse as an integer and
`obs_type[:underscore]` is the key minus its last character.  The second
`elif obs_generic == 'p'` branch of the source (pulse counts) is dead code
shadowed by the power branch above it.  Keys are distinct in well-formed
packets, so appending models dict insertion. -/
def gemascii_step (packet : List (String × ℚ)) (obs_type : String) (val : ℚ) :
    Except PyError (List (String × ℚ)) :=
  if obs_type = "n" then .ok (packet ++ [("ser_no", (pyIntTrunc val : ℚ))])
  else if obs_type = "m" then .ok (packet ++ [("secs", (pyIntTrunc val * 60 : ℚ))])
  else if obs_type = "v" then .ok (packet ++ [("ch1_volt", val)])
  else
    -- underscore = obs_type.find(b'_'); obs_generic = obs_type[:underscore]
    match pyParseInt (pySliceFrom obs_type (pyFind '_' obs_type + 1)) with
    | none => .error .valueError
    | some channel =>
        if pySliceTo obs_type (pyFind '_' obs_type) = "wh" then
          -- int(float(val) * 3600 + 0.5): convert to watt-seconds
          .ok (packet ++ [(intTag channel "_energy2", (pyIntTrunc (val * 3600 + 1/2) : ℚ))])
        else if pySliceTo obs_type (pyFind '_' obs_type) = "p" then
          .ok (packet ++ [(intTag channel "_power", val)])
        else if pySliceTo obs_type (pyFind '_' obs_type) = "a" then
          .ok (packet ++ [(intTag channel "_amp", val)])
        else if pySliceTo obs_type (pyFind '_' obs_type) = "t" then
          .ok (packet ++ [(intTag channel "_temperature", val)])
        else
          -- log.debug('Unrecognized observation type', ...): skipped
          .ok packet

/-- `GEMAscii._extract_packet_from`: fold the parsed pairs in order starting
from the empty dict; the first uncaught exception aborts the decode. -/
def gemascii_extract (pairs : List (String × ℚ)) : Except PyError (List (String × ℚ)) :=
  pairs.foldlM (fun packet kv => gemascii_step packet kv.1 kv.2) []

/-- C8 (amended): a key whose kind designator is unrecognized is skipped —
decoding continues and the recognized fields are still returned — provided
its channel suffix parses as an integer; shown in general (first conjunct:
the pair contributes nothing to the fold, wherever it occurs) and on the
concrete buffer `xyz_3=v&wh_1=w`, which decodes to just the energy field. -/
theorem gemascii_unrecognized_skipped (k : String) (v w : ℚ)
    (pairs packet : List (String × ℚ))
    (hk1 : k ≠ "n") (hk2 : k ≠ "m") (hk3 : k ≠ "v")
    (hc : ∃ c, pyParseInt (pySliceFrom k (pyFind '_' k + 1)) = some c)
    (hg1 : pySliceTo k (pyFind '_' k) ≠ "wh") (hg2 : pySliceTo k (pyFind '_' k) ≠ "p")
    (hg3 : pySliceTo k (pyFind '_' k) ≠ "a") (hg4 : pySliceTo k (pyFind '_' k) ≠ "t") :
    (((k, v) :: pairs).foldlM (fun packet kv => gemascii_step packet kv.1 kv.2) packet =
      pairs.foldlM (fun packet kv => gemascii_step packet kv.1 kv.2) packet) ∧
    gemascii_extract [(k, v), ("wh_1", w)] =
      .ok [("ch1_energy2", (pyIntTrunc (w * 3600 + 1/2) : ℚ))] := by
  have hstep : ∀ pk : List (String × ℚ), gemascii_step pk k v = .ok pk := by
    intro pk
    unfold gemascii_step
    rw [if_neg hk1, if_neg hk2, if_neg hk3]
    obtain ⟨c, hc⟩ := hc
    rw [hc]
    simp only [if_neg hg1, if_neg hg2, if_neg hg3, if_neg hg4]
  constructor
  · rw [List.foldlM_cons, hstep]
    rfl
  · unfold gemascii_extract
    rw [List.foldlM_cons, hstep]
    rfl

/-- Witness for `gemascii_unrecognized_skipped` at the key `xyz_3`. -/
theorem gemascii_unrecognized_skipped_witness :
    gemascii_extract [("xyz_3", 1), ("wh_1", 2)] =
      .ok [("ch1_energy2", (pyIntTrunc ((2 : ℚ) * 3600 + 1/2) : ℚ))] :=
  (gemascii_unrecognized_skipped "xyz_3" 1 2 [] [] (by decide) (by decide) (by decide)
    ⟨3, rfl⟩ (by decide) (by decide) (by decide) (by decide)).2

/-- C8 (counterexample): a key with no integer channel suffix — here `foo`,
with no `_` at all, so `int(b'foo')` is attempted — raises `ValueError` and
aborts the whole decode: no Sample is returned even when a recognized key
follows. -/
theorem gemascii_unrecognized_key_fatal :
    gemascii_extract [("foo", 1)] = .error PyError.valueError ∧
    gemascii_extract [("foo", 1), ("wh_1", 2)] = .error PyError.valueError :=
  ⟨rfl, rfl⟩

/-- Events observed on the Transport during `Brultech.setup`. -/
inductive SetupEvent where
  | flush                   -- source.flush_input()
  | sent (prompt : String)  -- source.write(prompt) inside write_with_response
  deriving DecidableEq, Repr

/-- `BaseConnection.write_with_response(prompt, expected, max_tries=3)`:
write the prompt, wait `send_delay`, read the queued bytes, and compare with
the expected acknowledgement; retry the whole write+read cycle and raise
`weewx.RetriesExceeded` after `max_tries` failures.  `dev prompt i` is the
response the device gives to `prompt` on the `i`-th try; the first component
is the list of prompts actually written, the `.error` carries the prompt
whose acknowledgement never arrived. -/
def write_with_response (dev : String → ℕ → String) (prompt expected : String) :
    ℕ → ℕ → List String × Except String Unit
  | 0, _ => ([], .error prompt)
  | k + 1, i =>
      if dev prompt i = expected then ([prompt], .ok ())
      else
        let r := write_with_response dev prompt expected k (i + 1)
        (prompt :: r.1, r.2)

/-- `'%02d' % packet_format` appended to `^^^SYSPKT` (`BTBase.setup`). -/
def sysPktPrompt (packet_format : ℕ) : String :=
  "^^^SYSPKT" ++ zeroPad 2 packet_format

/-- `Brultech.setup` followed by `self.packet_obj.setup()` (`BTBase.setup`):
flush stale input, then the four command/response exchanges in source order —
`^^^SYSOFF`/`OFF\r\n`, `^^^SYSKAI0`/`OK\r\n`, `^^^TMPDGC`/`C`,
`^^^SYSPKT<NN>`/`PKT\r\n` — each with the default `max_tries = 3`.  The
first failing exchange raises, so no later exchange runs. -/
def brultech_setup (dev : String → ℕ → String) (packet_format : ℕ) :
    List SetupEvent × Except String Unit :=
  match write_with_response dev "^^^SYSOFF" "OFF\r\n" 3 1 with
  | (t1, .error e) => (SetupEvent.flush :: t1.map SetupEvent.sent, .error e)
  | (t1, .ok ()) =>
    match write_with_response dev "^^^SYSKAI0" "OK\r\n" 3 1 with
    | (t2, .error e) => (SetupEvent.flush :: (t1 ++ t2).map SetupEvent.sent, .error e)
    | (t2, .ok ()) =>
      match write_with_response dev "^^^TMPDGC" "C" 3 1 with
      | (t3, .error e) => (SetupEvent.flush :: (t1 ++ t2 ++ t3).map SetupEvent.sent, .error e)
      | (t3, .ok ()) =>
        match write_with_response dev (sysPktPrompt packet_format) "PKT\r\n" 3 1 with
        | (t4, .error e) =>
            (SetupEvent.flush :: (t1 ++ t2 ++ t3 ++ t4).map SetupEvent.sent, .error e)
        | (t4, .ok ()) =>
            (SetupEvent.flush :: (t1 ++ t2 ++ t3 ++ t4).map SetupEvent.sent, .ok ())

/-- The `^^^SYSPKT<NN>` prompt is at least 11 characters long, so it differs
from the three fixed prompts (9, 10 and 9 characters). -/
lemma wwr_succ (dev : String → ℕ → String) (p e : String) (k i : ℕ) :
    write_with_response dev p e (k + 1) i =
      if dev p i = e then ([p], .ok ())
      else (p :: (write_with_response dev p e k (i + 1)).1,
        (write_with_response dev p e k (i + 1)).2) := rfl

lemma sysPktPrompt_length (pf : ℕ) : 11 ≤ (sysPktPrompt pf).length := by
  have hz : (zeroPad 2 pf).length =
      (2 - (Nat.repr pf).data.length) + (Nat.repr pf).data.length := by
    show (List.replicate (2 - (Nat.repr pf).data.length) '0' ++ (Nat.repr pf).data).length = _
    rw [List.length_append, List.length_replicate]
  have hs : (sysPktPrompt pf).length = "^^^SYSPKT".length + (zeroPad 2 pf).length :=
    String.length_append _ _
  have h9 : "^^^SYSPKT".length = 9 := rfl
  omega

set_option maxRecDepth 4000 in
/-- C9: starting up, `setup` performs exactly flush, `^^^SYSOFF` (ack
`OFF\r\n`), `^^^SYSKAI0` (ack `OK\r\n`), `^^^TMPDGC` (ack `C`), then
`^^^SYSPKT<NN>` (ack `PKT\r\n`), in this order, when each acknowledgement
arrives; and when a step's acknowledgement never arrives within the
`max_tries = 3` budget — shown for the Celsius step — setup raises
`RetriesExceeded` after exactly 3 sends of that prompt and the later
packet-format step never runs. -/
theorem brultech_setup_sequence (dev : String → ℕ → String) (pf : ℕ) :
    (dev "^^^SYSOFF" 1 = "OFF\r\n" → dev "^^^SYSKAI0" 1 = "OK\r\n" →
     dev "^^^TMPDGC" 1 = "C" → dev (sysPktPrompt pf) 1 = "PKT\r\n" →
      brultech_setup dev pf =
        ([.flush, .sent "^^^SYSOFF", .sent "^^^SYSKAI0", .sent "^^^TMPDGC",
          .sent (sysPktPrompt pf)], .ok ())) ∧
    (dev "^^^SYSOFF" 1 = "OFF\r\n" → dev "^^^SYSKAI0" 1 = "OK\r\n" →
     (∀ i, dev "^^^TMPDGC" i ≠ "C") →
      brultech_setup dev pf =
        ([.flush, .sent "^^^SYSOFF", .sent "^^^SYSKAI0", .sent "^^^TMPDGC",
          .sent "^^^TMPDGC", .sent "^^^TMPDGC"], .error "^^^TMPDGC") ∧
      SetupEvent.sent (sysPktPrompt pf) ∉ (brultech_setup dev pf).1) := by
  have w1 : dev "^^^SYSOFF" 1 = "OFF\r\n" →
      write_with_response dev "^^^SYSOFF" "OFF\r\n" 3 1 = (["^^^SYSOFF"], .ok ()) := by
    intro h
    rw [show (3 : ℕ) = 2 + 1 from rfl, wwr_succ, if_pos h]
  have w2 : dev "^^^SYSKAI0" 1 = "OK\r\n" →
      write_with_response dev "^^^SYSKAI0" "OK\r\n" 3 1 = (["^^^SYSKAI0"], .ok ()) := by
    intro h
    rw [show (3 : ℕ) = 2 + 1 from rfl, wwr_succ, if_pos h]
  constructor
  · intro h1 h2 h3 h4
    have w3 : write_with_response dev "^^^TMPDGC" "C" 3 1 = (["^^^TMPDGC"], .ok ()) := by
      rw [show (3 : ℕ) = 2 + 1 from rfl, wwr_succ, if_pos h3]
    have w4 : write_with_response dev (sysPktPrompt pf) "PKT\r\n" 3 1 =
        ([sysPktPrompt pf], .ok ()) := by
      rw [show (3 : ℕ) = 2 + 1 from rfl, wwr_succ, if_pos h4]
    unfold brultech_setup
    rw [w1 h1, w2 h2, w3, w4]
    rfl
  · intro h1 h2 h3
    have hne : ∀ q : String, q.length ≠ (sysPktPrompt pf).length → sysPktPrompt pf ≠ q := by
      intro q hq he
      exact hq (by rw [he])
    have hpk := sysPktPrompt_length pf
    have heq : brultech_setup dev pf =
        ([.flush, .sent "^^^SYSOFF", .sent "^^^SYSKAI0", .sent "^^^TMPDGC",
          .sent "^^^TMPDGC", .sent "^^^TMPDGC"], .error "^^^TMPDGC") := by
      have w3 : write_with_response dev "^^^TMPDGC" "C" 3 1 =
          (["^^^TMPDGC", "^^^TMPDGC", "^^^TMPDGC"], .error "^^^TMPDGC") := by
        rw [show (3 : ℕ) = 2 + 1 from rfl, wwr_succ, if_neg (h3 1)]
        rw [show (2 : ℕ) = 1 + 1 from rfl, wwr_succ, if_neg (h3 2)]
        rw [show (1 : ℕ) = 0 + 1 from rfl, wwr_succ, if_neg (h3 3)]
        rfl
      unfold brultech_setup
      rw [w1 h1, w2 h2, w3]
      rfl
    refine ⟨heq, ?_⟩
    rw [heq]
    have hn1 : sysPktPrompt pf ≠ "^^^SYSOFF" := hne _ (by intro h; rw [← h] at hpk; revert hpk; decide)
    have hn2 : sysPktPrompt pf ≠ "^^^SYSKAI0" := hne _ (by intro h; rw [← h] at hpk; revert hpk; decide)
    have hn3 : sysPktPrompt pf ≠ "^^^TMPDGC" := hne _ (by intro h; rw [← h] at hpk; revert hpk; decide)
    intro hmem
    simp only [List.mem_cons, List.not_mem_nil, or_false] at hmem
    rcases hmem with h|h|h|h|h|h
    · exact SetupEvent.noConfusion h
    · exact hn1 (SetupEvent.sent.inj h)
    · exact hn2 (SetupEvent.sent.inj h)
    · exact hn3 (SetupEvent.sent.inj h)
    · exact hn3 (SetupEvent.sent.inj h)
    · exact hn3 (SetupEvent.sent.inj h)

/-- Witness for `brultech_setup_sequence`: a device that acknowledges every
command on the first try yields exactly the five-step trace, with packet
format 04 (`GEMBin48NetTime`). -/
theorem brultech_setup_sequence_witness :
    brultech_setup
      (fun p _ => if p = "^^^SYSOFF" then "OFF\r\n" else if p = "^^^SYSKAI0" then "OK\r\n"
        else if p = "^^^TMPDGC" then "C" else "PKT\r\n") 4 =
      ([.flush, .sent "^^^SYSOFF", .sent "^^^SYSKAI0", .sent "^^^TMPDGC",
        .sent (sysPktPrompt 4)], .ok ()) :=
  (brultech_setup_sequence
      (fun p _ => if p = "^^^SYSOFF" then "OFF\r\n" else if p = "^^^SYSKAI0" then "OK\r\n"
        else if p = "^^^TMPDGC" then "C" else "PKT\r\n") 4).1
    rfl rfl rfl (by decide)

/-- The per-channel counters a decoded GEM packet carries into the older
derivation path (`ch%d_aws`, `ch%d_pws`, `secs` keys, here indexed by the
channel number). -/
structure GEMCounters where
  aws : ℕ → ℕ
  pws : ℕ → ℕ
  secs : ℕ

/-- `GEMBase._calc_secs`: elapsed device seconds, adding
`SEC_COUNTER_MAX = 2^24` when the counter wrapped. -/
def calc_secs (oldpkt newpkt : GEMCounters) : ℤ :=
  (newpkt.secs : ℤ) - oldpkt.secs + (if newpkt.secs < oldpkt.secs then 16777216 else 0)

/-- The derived per-channel values `GEMBase._calc_pe` stores into the packet
under `tag+'_w'`, `tag+'_pw'`, … (field names follow the stored keys; note
the source assigns the variable `nw` to the `_pw` key and `pw` to `_nw`,
and likewise swaps `_pwh`/`_nwh`). -/
structure ChannelDerived where
  w : ℚ
  pw : ℚ
  nw : ℚ
  pwh : ℚ
  nwh : ℚ
  wh : ℚ
  dwh : ℚ
  deriving DecidableEq, Repr

/-- `GEMBase._calc_pe` for one channel (Python 2: `/` on two ints is floor
division — `Int.fdiv` — and `/ 3600.0` is float, here exact rational).
`BYTE5_COUNTER_MAX = 2^40 = 1099511627776` is added to a negative raw delta
(counter wraparound compensation).  A zero `ds` would raise
`ZeroDivisionError` in Python; no claim touches that case. -/
def calc_pe (ds : ℤ) (prev_aws prev_pws now_aws now_pws : ℕ) : ChannelDerived :=
  let daws : ℤ := (now_aws : ℤ) - prev_aws + (if now_aws < prev_aws then 1099511627776 else 0)
  let dpws : ℤ := (now_pws : ℤ) - prev_pws + (if now_pws < prev_pws then 1099511627776 else 0)
  let w0 : ℤ := Int.fdiv daws ds        -- ret[tag+'_w'] = daws / ds
  let pw0 : ℤ := Int.fdiv dpws ds       -- pw = dpws / ds
  let nw0 : ℤ := w0 - pw0               -- nw = ret[tag+'_w'] - pw
  -- ret[tag+'_pw'] = nw; ret[tag+'_nw'] = pw
  -- if ret[tag+'_pw'] == 0: ret[tag+'_w'] *= -1
  let w1 : ℤ := if nw0 = 0 then -w0 else w0
  let pwh : ℚ := (now_pws : ℚ) / 3600
  let nwh : ℚ := ((now_aws : ℚ) - now_pws) / 3600
  let prev_dwh : ℚ := ((prev_aws : ℚ) - 2 * prev_pws) / 3600
  -- ret[tag+'_pwh'] = nwh; ret[tag+'_nwh'] = pwh
  -- ret[tag+'_wh'] = ret[tag+'_pwh'] - ret[tag+'_nwh']
  ⟨(w1 : ℚ), (nw0 : ℚ), (pw0 : ℚ), nwh, pwh, nwh - pwh, nwh - pwh - prev_dwh⟩

/-- `calc_pe` with the absolute-counter wraparound branch removed (the
polarized-counter branch is untouched). -/
def calc_pe_no_aws_wrap (ds : ℤ) (prev_aws prev_pws now_aws now_pws : ℕ) : ChannelDerived :=
  let daws : ℤ := (now_aws : ℤ) - prev_aws
  let dpws : ℤ := (now_pws : ℤ) - prev_pws + (if now_pws < prev_pws then 1099511627776 else 0)
  let w0 : ℤ := Int.fdiv daws ds
  let pw0 : ℤ := Int.fdiv dpws ds
  let nw0 : ℤ := w0 - pw0
  let w1 : ℤ := if nw0 = 0 then -w0 else w0
  let pwh : ℚ := (now_pws : ℚ) / 3600
  let nwh : ℚ := ((now_aws : ℚ) - now_pws) / 3600
  let prev_dwh : ℚ := ((prev_aws : ℚ) - 2 * prev_pws) / 3600
  ⟨(w1 : ℚ), (nw0 : ℚ), (pw0 : ℚ), nwh, pwh, nwh - pwh, nwh - pwh - prev_dwh⟩

/-- `GEMBase.calculate(prev, now)` from gem_driver.py: first scan channels
1..N and raise `CounterResetError` (carrying the first offending channel) as
soon as any absolute watt-second counter decreased; only then compute the
per-channel derived values and `interval = ds / 60.0`. -/
def gem_calculate (N : ℕ) (prev now : GEMCounters) : Except ℕ (List ChannelDerived × ℚ) :=
  match ((List.range N).map (· + 1)).find? (fun x => now.aws x < prev.aws x) with
  | some x => .error x
  | none =>
      .ok ((List.range N).map (fun i =>
          calc_pe (calc_secs prev now) (prev.aws (i + 1)) (prev.pws (i + 1))
            (now.aws (i + 1)) (now.pws (i + 1))),
        (calc_secs prev now : ℚ) / 60)

/-- `gem_calculate` computed with the branchless `calc_pe_no_aws_wrap`. -/
def gem_calculate_no_aws_wrap (N : ℕ) (prev now : GEMCounters) :
    Except ℕ (List ChannelDerived × ℚ) :=
  match ((List.range N).map (· + 1)).find? (fun x => now.aws x < prev.aws x) with
  | some x => .error x
  | none =>
      .ok ((List.range N).map (fun i =>
          calc_pe_no_aws_wrap (calc_secs prev now) (prev.aws (i + 1)) (prev.pws (i + 1))
            (now.aws (i + 1)) (now.pws (i + 1))),
        (calc_secs prev now : ℚ) / 60)

/-- C10: `calculate` raises `CounterResetError` exactly when some channel's
absolute watt-second counter decreased — returning no derived fields at all —
and consequently the absolute-counter wraparound compensation inside
`_calc_pe` is unreachable from `calculate`: replacing `_calc_pe` by the
variant without that branch never changes the result. -/
theorem gem_calculate_reset_guard (N : ℕ) (prev now : GEMCounters) :
    ((∃ x, 1 ≤ x ∧ x ≤ N ∧ now.aws x < prev.aws x) ↔
      (∃ x, gem_calculate N prev now = .error x)) ∧
    gem_calculate N prev now = gem_calculate_no_aws_wrap N prev now := by
  constructor
  · constructor
    · intro ⟨x, hx1, hxN, hlt⟩
      have hmem : x ∈ (List.range N).map (· + 1) := by
        simp only [List.mem_map, List.mem_range]
        exact ⟨x - 1, by omega, by omega⟩
      have hsome : (((List.range N).map (· + 1)).find?
          (fun x => now.aws x < prev.aws x)).isSome := by
        rw [List.find?_isSome]
        exact ⟨x, hmem, by simpa using hlt⟩
      obtain ⟨y, hy⟩ := Option.isSome_iff_exists.mp hsome
      exact ⟨y, by unfold gem_calculate; rw [hy]⟩
    · intro ⟨x, hx⟩
      unfold gem_calculate at hx
      cases hfind : ((List.range N).map (· + 1)).find? (fun x => now.aws x < prev.aws x) with
      | none => rw [hfind] at hx; exact Except.noConfusion hx
      | some y =>
          have hy := List.find?_some hfind
          have hmem := List.mem_of_find?_eq_some hfind
          simp only [List.mem_map, List.mem_range] at hmem
          obtain ⟨i, hiN, hiy⟩ := hmem
          exact ⟨y, by omega, by omega, by simpa using hy⟩
  · unfold gem_calculate gem_calculate_no_aws_wrap
    cases hfind : ((List.range N).map (· + 1)).find? (fun x => now.aws x < prev.aws x) with
    | some y => rfl
    | none =>
        have hall := List.find?_eq_none.mp hfind
        have hmap : ∀ i ∈ List.range N,
            calc_pe (calc_secs prev now) (prev.aws (i + 1)) (prev.pws (i + 1))
              (now.aws (i + 1)) (now.pws (i + 1)) =
            calc_pe_no_aws_wrap (calc_secs prev now) (prev.aws (i + 1)) (prev.pws (i + 1))
              (now.aws (i + 1)) (now.pws (i + 1)) := by
          intro i hi
          have hge : ¬ now.aws (i + 1) < prev.aws (i + 1) := by
            have := hall (i + 1) (by
              simp only [List.mem_map, List.mem_range]
              exact ⟨i, List.mem_range.mp hi, rfl⟩)
            simpa using this
          unfold calc_pe calc_pe_no_aws_wrap
          rw [if_neg hge, add_zero]
        rw [List.map_congr_left hmap]

end Brultech
